import Mathlib

/-!
Verification of the songLibrary repository: a shallow embedding of the
cache-coherent repository layer (internal/repository/repository.go), the
Postgres store adapter (internal/repository/postgres/postgres.go), the service
layer (internal/service/service.go) and the external-metadata client
(internal/delivery/music_info/music_info.go).

Modelling conventions:
- UUIDs and timestamps are `Nat`; the Go zero value is `0`.
- Go `error` results become `Except Err`; the error taxonomy mirrors
  internal/domain/domain.go plus opaque backend failures.
- Go interface values (Database, Cache) become records of state-passing
  functions; each operation returns its result together with the new state.
- Go nil pointers become `Option`; a nil dereference is the `panics` outcome.
-/

namespace SongLib

/-- Error taxonomy, mirroring internal/domain/domain.go plus the opaque
errors produced by the adapters. -/
inductive Err where
  | songExists
  | songNotFound
  | songNameIsNull
  | songGroupIsNull
  | songNameAndGroupIsNull
  | invalidSongName
  | invalidSongGroup
  | invalidSongText
  | unmarshalFailure
  | backend (msg : String)
  deriving DecidableEq, Repr

/-- domain.Song: id/release_date/created_at/updated_at modelled as Nat. -/
structure Song where
  id : Nat
  name : String
  group : String
  text : String
  link : String
  releaseDate : Nat
  createdAt : Nat
  updatedAt : Nat
  deriving DecidableEq, Repr

/-- domain.SongInfo (= SongSearch): the lookup-key projection. -/
structure SongInfo where
  id : Nat
  name : String
  group : String
  deriving DecidableEq, Repr

/-- The zero value `domain.Song{}`. -/
def emptySong : Song :=
  { id := 0, name := "", group := "", text := "", link := ""
    releaseDate := 0, createdAt := 0, updatedAt := 0 }

/-- The `Database` interface of internal/repository/repository.go, as a record
of state-passing operations over a store state `τ`.  `create` and `update`
return the record as mutated by the adapter (Go mutates it in place: Create
assigns id/timestamps, Update refreshes updated_at) so that the repository can
pass the populated record on to the cache, exactly as the Go code does. -/
structure DatabaseOps (τ : Type) where
  create : τ → Song → (Except Err Song) × τ
  read : τ → SongInfo → Except Err Song
  update : τ → SongInfo → Song → (Except Err Song) × τ
  delete : τ → SongInfo → (Except Err Unit) × τ
  readAllWithFilter : τ → Song → Nat → Nat → Except Err (List Song)

/-- The `Cache` interface of internal/repository/repository.go. -/
structure CacheOps (σ : Type) where
  set : σ → Song → (Except Err Unit) × σ
  get : σ → SongInfo → Except Err Song
  invalidate : σ → SongInfo → (Except Err Unit) × σ

/-- Repository.Create (repository.go): store write first; on success mirror
the populated record into the cache; either failure is returned as-is. -/
def Repository.create {τ σ : Type} (d : DatabaseOps τ) (c : CacheOps σ)
    (st : τ × σ) (song : Song) : (Except Err Unit) × (τ × σ) :=
  match d.create st.1 song with
  | (.error e, t) => (.error e, (t, st.2))
  | (.ok populated, t) =>
    match c.set st.2 populated with
    | (.error e, s) => (.error e, (t, s))
    | (.ok _, s) => (.ok (), (t, s))

/-- Repository.Read (repository.go): try the cache; on any Get error fall
through to the store, then fill the cache with the freshly read record; a
failing cache fill loses the record and returns the Set error. -/
def Repository.read {τ σ : Type} (d : DatabaseOps τ) (c : CacheOps σ)
    (st : τ × σ) (key : SongInfo) : (Except Err Song) × (τ × σ) :=
  match c.get st.2 key with
  | .ok s => (.ok s, st)
  | .error _ =>
    match d.read st.1 key with
    | .error e => (.error e, st)
    | .ok s =>
      match c.set st.2 s with
      | (.error e, s2) => (.error e, (st.1, s2))
      | (.ok _, s2) => (.ok s, (st.1, s2))

/-- Repository.Update (repository.go): store write first; on success the
record (with the adapter-refreshed updated_at) overwrites the cache entry. -/
def Repository.update {τ σ : Type} (d : DatabaseOps τ) (c : CacheOps σ)
    (st : τ × σ) (key : SongInfo) (updatedSong : Song) :
    (Except Err Unit) × (τ × σ) :=
  match d.update st.1 key updatedSong with
  | (.error e, t) => (.error e, (t, st.2))
  | (.ok refreshed, t) =>
    match c.set st.2 refreshed with
    | (.error e, s) => (.error e, (t, s))
    | (.ok _, s) => (.ok (), (t, s))

/-- Repository.Delete (repository.go): store delete first; on success the
cache entry for the same key is invalidated. -/
def Repository.delete {τ σ : Type} (d : DatabaseOps τ) (c : CacheOps σ)
    (st : τ × σ) (key : SongInfo) : (Except Err Unit) × (τ × σ) :=
  match d.delete st.1 key with
  | (.error e, t) => (.error e, (t, st.2))
  | (.ok _, t) =>
    match c.invalidate st.2 key with
    | (.error e, s) => (.error e, (t, s))
    | (.ok _, s) => (.ok (), (t, s))

/-- Repository.ReadAllWithFilter (repository.go): delegates to the store. -/
def Repository.readAllWithFilter {τ σ : Type} (d : DatabaseOps τ)
    (st : τ × σ) (filterSong : Song) (limit offset : Nat) :
    (Except Err (List Song)) × (τ × σ) :=
  (d.readAllWithFilter st.1 filterSong limit offset, st)

/-- `%` in a LIKE pattern: try the rest of the pattern against every suffix
of the text (zero or more characters consumed). -/
def suffixAny (f : List Char → Bool) : List Char → Bool
  | [] => f []
  | c :: ts => f (c :: ts) || suffixAny f ts

/-- A literal pattern character: consume one matching text character. -/
def likeLit (q : Char) (f : List Char → Bool) : List Char → Bool
  | [] => false
  | c :: ts => c == q && f ts

/-- `_` in a LIKE pattern: consume exactly one arbitrary text character. -/
def likeSkipOne (f : List Char → Bool) : List Char → Bool
  | [] => false
  | _ :: ts => f ts

/-- Postgres LIKE matching of a pattern against a text: `%` matches any
character sequence, `_` any single character, and the default escape
character backslash makes the following pattern character literal; every
other character matches itself.  (A pattern ending in a lone backslash is a
Postgres error; the patterns built below always end in `%`, so that case is
unreachable and returns false.) -/
def likeMatch : List Char → List Char → Bool
  | [], t => t.isEmpty
  | p :: ps, t =>
    if p = '%' then suffixAny (likeMatch ps) t
    else if p = '_' then likeSkipOne (likeMatch ps) t
    else if p = '\\' then
      match ps with
      | [] => false
      | q :: ps2 => likeLit q (likeMatch ps2) t
    else likeLit p (likeMatch ps) t

/-- `s ILIKE '%' || pat || '%'` with the raw, unescaped filter value `pat`
interpolated, exactly as Postgres.ReadAllWithFilter builds it: the pattern is
bracketed in `%` and matched case-insensitively (both sides lower-cased), and
any `%`, `_` or backslash inside `pat` keeps its LIKE meta-meaning because
the adapter never escapes the value. -/
def containsCI (hay pat : String) : Bool :=
  likeMatch ('%' :: (pat.toList.map Char.toLower) ++ ['%'])
    (hay.toList.map Char.toLower)

/-- The WHERE clause built by Postgres.ReadAllWithFilter: one conjunct per
non-zero filter field (name ILIKE, group_name ILIKE, release_date =). -/
def matchesFilter (filterSong s : Song) : Bool :=
  (filterSong.name == "" || containsCI s.name filterSong.name) &&
  (filterSong.group == "" || containsCI s.group filterSong.group) &&
  (filterSong.releaseDate == 0 || s.releaseDate == filterSong.releaseDate)

/-- Insert `s` into a list kept in descending created_at order. -/
def insertDesc (s : Song) : List Song → List Song
  | [] => [s]
  | t :: ts =>
    if t.createdAt ≤ s.createdAt then s :: t :: ts else t :: insertDesc s ts

/-- `ORDER BY created_at DESC`. -/
def sortDesc (l : List Song) : List Song := l.foldr insertDesc []

/-- Postgres.ReadAllWithFilter: filter the table; the code appends
`ORDER BY created_at DESC LIMIT .. OFFSET ..` only when `limit ≠ 0`, so with
`limit = 0` the filtered rows come back in table order, unsorted. -/
def pgReadAllWithFilter (table : List Song) (filterSong : Song)
    (limit offset : Nat) : List Song :=
  let filtered := table.filter (matchesFilter filterSong)
  if limit = 0 then filtered
  else ((sortDesc filtered).drop offset).take limit

/-- Postgres.Read: `SELECT .. FROM songs WHERE id = $1` — lookup is by id
only; the key's name and group are never used. -/
def pgRead (table : List Song) (key : SongInfo) : Except Err Song :=
  match table.find? (fun s => s.id == key.id) with
  | some s => .ok s
  | none => .error .songNotFound

/-- Postgres.Create: assigns a fresh id and both timestamps, then inserts; a
duplicate key yields ErrSongExists (unique-violation code 23505). -/
def pgCreate (now newId : Nat) (table : List Song) (song : Song) :
    (Except Err Song) × List Song :=
  let populated := { song with id := newId, createdAt := now, updatedAt := now }
  if table.any (fun s => s.id == newId) then (.error .songExists, table)
  else (.ok populated, table ++ [populated])

/-- Postgres.Update: `UPDATE songs SET name, group_name, text, link,
release_date, updated_at WHERE id = $7` — the row keeps its id and
created_at; zero rows affected yields ErrSongNotFound. -/
def pgUpdate (now : Nat) (table : List Song) (key : SongInfo)
    (updatedSong : Song) : (Except Err Song) × List Song :=
  let refreshed := { updatedSong with updatedAt := now }
  if table.any (fun s => s.id == key.id) then
    (.ok refreshed,
      table.map (fun s =>
        if s.id == key.id then
          { s with name := refreshed.name, group := refreshed.group
                   text := refreshed.text, link := refreshed.link
                   releaseDate := refreshed.releaseDate
                   updatedAt := refreshed.updatedAt }
        else s))
  else (.error .songNotFound, table)

/-- Postgres.Delete: `DELETE FROM songs WHERE id = $1`; zero rows affected
yields ErrSongNotFound. -/
def pgDelete (table : List Song) (key : SongInfo) :
    (Except Err Unit) × List Song :=
  if table.any (fun s => s.id == key.id) then
    (.ok (), table.filter (fun s => !(s.id == key.id)))
  else (.error .songNotFound, table)

/-- The Postgres adapter packaged as a `Database`; `now` and `newId` stand for
the nondeterministic time.Now() and uuid.New() of the next operation. -/
def pgDb (now newId : Nat) : DatabaseOps (List Song) :=
  { create := pgCreate now newId
    read := pgRead
    update := pgUpdate now
    delete := pgDelete
    readAllWithFilter := fun table f limit offset =>
      .ok (pgReadAllWithFilter table f limit offset) }

/-! ## Redis cache adapter

Modelled from the spec: internal/repository/redis/redis.go is not under src/
(only its test is), so the cache adapter is modelled from spec §4.3 and the
surviving test redis_test.go: keys are the composite "song:<group>-<name>"
(GenKey rejects empty name/group with the domain null-errors), Set stores the
serialized record with no expiration, Get distinguishes a missing key
(not-found) from a payload that fails to deserialize (integrity error), and
Invalidate deletes the key. -/

/-- A stored cache payload: either a record that deserializes back, or a
malformed payload that fails to unmarshal. -/
inductive CacheVal where
  | good (s : Song)
  | malformed
  deriving DecidableEq, Repr

/-- The cache key-value state: association list, first binding wins. -/
abbrev RedisState : Type := List (String × CacheVal)

/-- Modelled from the spec: Redis.GenKey — "song:<group>-<name>", rejecting
empty components (redis_test.go: GenKey(ctx, "Muse", "Hysteria") =
"song:Muse-Hysteria"). -/
def genKey (group name : String) : Except Err String :=
  if name = "" && group = "" then .error .songNameAndGroupIsNull
  else if name = "" then .error .songNameIsNull
  else if group = "" then .error .songGroupIsNull
  else .ok ("song:" ++ group ++ "-" ++ name)

/-- The composite key of a song's own name/group (what Set keys by). -/
def songKey (s : Song) : String := "song:" ++ s.group ++ "-" ++ s.name

/-- Redis SET: overwrite the binding in place when the key exists, otherwise
add a new binding. -/
def setEntry (c : RedisState) (k : String) (v : CacheVal) : RedisState :=
  if c.any (fun p => p.1 == k) then
    c.map (fun p => if p.1 == k then (k, v) else p)
  else (k, v) :: c

/-- First binding for `k`, if any. -/
def lookupVal (c : RedisState) (k : String) : Option CacheVal :=
  (c.find? (fun p => p.1 == k)).map (fun p => p.2)

/-- Modelled from the spec: Redis.Set — key by the song's own group/name,
store the serialized record (serialization of a well-formed record
succeeds). -/
def redisSet (c : RedisState) (s : Song) : (Except Err Unit) × RedisState :=
  match genKey s.group s.name with
  | .error e => (.error e, c)
  | .ok k => (.ok (), setEntry c k (.good s))

/-- Modelled from the spec: Redis.Get — a missing key is a not-found error, a
payload that fails to unmarshal is a distinct integrity error. -/
def redisGet (c : RedisState) (key : SongInfo) : Except Err Song :=
  match genKey key.group key.name with
  | .error e => .error e
  | .ok k =>
    match lookupVal c k with
    | none => .error .songNotFound
    | some (.good s) => .ok s
    | some .malformed => .error .unmarshalFailure

/-- Modelled from the spec: Redis.Invalidate — DEL the key. -/
def redisInvalidate (c : RedisState) (key : SongInfo) :
    (Except Err Unit) × RedisState :=
  match genKey key.group key.name with
  | .error e => (.error e, c)
  | .ok k => (.ok (), c.filter (fun p => !(p.1 == k)))

/-- The Redis adapter packaged as a `Cache`. -/
def redisCache : CacheOps RedisState :=
  { set := redisSet, get := redisGet, invalidate := redisInvalidate }

/-! ## External metadata client (internal/delivery/music_info/music_info.go)
and the service layer (internal/service/service.go) -/

/-- The decoded body of the external API's /info response (dto.SongDTO). -/
structure SongResponse where
  name : String
  group : String
  text : String
  link : String
  releaseDate : Nat
  deriving DecidableEq, Repr

/-- ConvertResponseToSong: rejects responses with an empty name, group or
text; otherwise builds a Song from the response fields. -/
def ConvertResponseToSong (response : SongResponse) : Except Err Song :=
  if response.name = "" then .error .invalidSongName
  else if response.group = "" then .error .invalidSongGroup
  else if response.text = "" then .error .invalidSongText
  else .ok { id := 0, name := response.name, group := response.group
             text := response.text, link := response.link
             releaseDate := response.releaseDate
             createdAt := 0, updatedAt := 0 }

/-- MustConvertResponseToSong: `song, _ := ConvertResponseToSong(...)` — the
error is discarded, and on failure the returned pointer is nil (`none`). -/
def MustConvertResponseToSong (songResponse : SongResponse) : Option Song :=
  match ConvertResponseToSong songResponse with
  | .ok s => some s
  | .error _ => none

/-- MusicInfo.FetchMusicInfo, after the HTTP exchange: a non-200 status is an
error, a body that fails to decode is an error, and a decoded body is passed
through MustConvertResponseToSong — so a 200 response whose conversion fails
yields `(.ok none)`: a nil Song pointer with a nil error. -/
def fetchMusicInfo (status : Nat) (body : Except Err SongResponse) :
    Except Err (Option Song) :=
  if status ≠ 200 then
    .error (.backend "failed to fetch song details, non-OK status code")
  else
    match body with
    | .error e => .error e
    | .ok r => .ok (MustConvertResponseToSong r)

/-- Outcome of running a Go function that may also panic. -/
inductive GoOutcome where
  | ok
  | fail (e : Err)
  | panics
  deriving DecidableEq, Repr

/-- Repository.Create as called with a possibly-nil `*domain.Song`: its very
first statement evaluates `song.Name` (in the slog.With call), so a nil
argument is a nil-pointer dereference before any check can run. -/
def Repository.createP {τ σ : Type} (d : DatabaseOps τ) (c : CacheOps σ)
    (st : τ × σ) (song : Option Song) : GoOutcome × (τ × σ) :=
  match song with
  | none => (.panics, st)
  | some s =>
    match Repository.create d c st s with
    | (.error e, st2) => (.fail e, st2)
    | (.ok _, st2) => (.ok, st2)

/-- Service.Add, with the outcome of MusicInfo.FetchMusicInfo supplied as an
argument: a fetch error is returned (wrapped, kind preserved); otherwise the
fetched pointer is handed to Repository.Create unchecked. -/
def Service.add {τ σ : Type} (d : DatabaseOps τ) (c : CacheOps σ)
    (st : τ × σ) (fetched : Except Err (Option Song)) : GoOutcome × (τ × σ) :=
  match fetched with
  | .error e => (.fail e, st)
  | .ok song => Repository.createP d c st song

/-- The part of the Repository interface that Service.Get/Update consume,
as a record of state-passing operations over a repository state `ρ`. -/
structure RepoOps (ρ : Type) where
  read : ρ → SongInfo → (Except Err Song) × ρ
  update : ρ → SongInfo → Song → (Except Err Unit) × ρ

/-- Service.Get: Repository.Read, with errors re-wrapped (kind preserved). -/
def Service.get {ρ : Type} (R : RepoOps ρ) (st : ρ) (key : SongInfo) :
    (Except Err Song) × ρ :=
  match R.read st key with
  | (.error e, st2) => (.error e, st2)
  | (.ok s, st2) => (.ok s, st2)

/-- mergeSongs (service.go): id always taken from the target; every empty
(zero) incoming field keeps the target's value, every non-empty incoming
field wins — created_at included; updated_at is always set to now. -/
def mergeSongs (now : Nat) (updatedSong targetSong : Song) : Song :=
  { id := targetSong.id
    name := if updatedSong.name = "" then targetSong.name else updatedSong.name
    group := if updatedSong.group = "" then targetSong.group else updatedSong.group
    text := if updatedSong.text = "" then targetSong.text else updatedSong.text
    link := if updatedSong.link = "" then targetSong.link else updatedSong.link
    releaseDate := if updatedSong.releaseDate = 0 then targetSong.releaseDate
                   else updatedSong.releaseDate
    createdAt := if updatedSong.createdAt = 0 then targetSong.createdAt
                 else updatedSong.createdAt
    updatedAt := now }

/-- Service.Update: read the current record through the Repository, merge the
partial update over it, then hand the merged record to Repository.Update. -/
def Service.update {ρ : Type} (R : RepoOps ρ) (now : Nat) (st : ρ)
    (songInfo : SongInfo) (updatedSong : Song) : (Except Err Unit) × ρ :=
  match Service.get R st songInfo with
  | (.error e, st2) => (.error e, st2)
  | (.ok target, st2) => R.update st2 songInfo (mergeSongs now updatedSong target)

/-! ## Spec-side predicates (written from the spec's words, for comparison
with the adapter code) and concrete fixtures -/

/-- `pat` occurs contiguously inside `hay`. -/
def SubstringOf (pat hay : List Char) : Prop := ∃ l r, hay = l ++ pat ++ r

/-- Lower-cased character list of a string. -/
def lowerChars (s : String) : List Char := s.toList.map Char.toLower

/-- The character list carries none of the LIKE metacharacters `%`, `_` and
backslash. -/
def likePlain (pat : List Char) : Bool :=
  pat.all (fun c => !(c == '%') && !(c == '_') && !(c == '\\'))

/-- The filter value is free of LIKE metacharacters, checked on the
lower-cased value (case-mapping neither introduces nor removes `%`, `_` or
backslash); for such values the ILIKE pattern degenerates to case-insensitive
substring containment. -/
def wildcardFree (s : String) : Bool := likePlain (lowerChars s)

/-- The spec's filter contract: name and group are case-insensitive substring
matches, release_date is an exact match, and empty/zero fields are not
filtered on. -/
def specMatches (filterSong s : Song) : Prop :=
  (filterSong.name = "" ∨ SubstringOf (lowerChars filterSong.name) (lowerChars s.name))
  ∧ (filterSong.group = "" ∨ SubstringOf (lowerChars filterSong.group) (lowerChars s.group))
  ∧ (filterSong.releaseDate = 0 ∨ s.releaseDate = filterSong.releaseDate)

/-- Descending created_at order (newest first). -/
def SortedDesc (l : List Song) : Prop :=
  List.Pairwise (fun a b => b.createdAt ≤ a.createdAt) l

/-- Fixture: a stored song (created first). -/
def hysteria : Song :=
  { id := 1, name := "Hysteria", group := "Muse", text := "It's bugging me"
    link := "https://link-to-song.com", releaseDate := 4
    createdAt := 1, updatedAt := 1 }

/-- Fixture: a second stored song (created later). -/
def starlight : Song :=
  { id := 2, name := "Starlight", group := "Muse", text := "Far away"
    link := "https://link-to-song2.com", releaseDate := 5
    createdAt := 2, updatedAt := 2 }

/-- Fixture: the consistent lookup key for `hysteria`. -/
def keyHysteria : SongInfo := { id := 1, name := "Hysteria", group := "Muse" }

/-- Fixture: an existing record about to be partially updated. -/
def tgtKeep : Song :=
  { id := 9, name := "X", group := "Y", text := "old", link := "L"
    releaseDate := 7, createdAt := 3, updatedAt := 1 }

/-- Fixture: a partial update carrying only new lyrics (all other fields
zero, as the HTTP update request produces). -/
def updPartialText : Song := { emptySong with text := "new lyrics" }

/-- Fixture: a partial update whose created_at is (unusually) non-zero. -/
def updNonZeroCreated : Song := { emptySong with text := "new lyrics", createdAt := 5 }

/-- Fixture: a name filter, mixed-case and free of LIKE metacharacters. -/
def filterHyst : Song := { emptySong with name := "hYsT" }

/-- Fixture: a 200 reply of the external API whose decoded body has an empty
name (the API can return such bodies; ConvertResponseToSong rejects them). -/
def emptyNameResponse : SongResponse :=
  { name := "", group := "Muse", text := "Ooh baby", link := "lnk", releaseDate := 3 }

/-- A store double whose every operation fails with a connectivity error
(playing the role of the gomock Database doubles in the repo's tests). -/
def downDb : DatabaseOps Unit :=
  { create := fun _ _ => (.error (.backend "connection refused"), ())
    read := fun _ _ => .error (.backend "connection refused")
    update := fun _ _ _ => (.error (.backend "connection refused"), ())
    delete := fun _ _ => (.error (.backend "connection refused"), ())
    readAllWithFilter := fun _ _ _ _ => .error (.backend "connection refused") }

/-- A cache double whose Set fails with a connectivity error while Get always
misses (redismock's ExpectSet(..).SetErr(..) in redis_test.go). -/
def faultyCache : CacheOps Unit :=
  { set := fun _ _ => (.error (.backend "could not set song JSON in Redis"), ())
    get := fun _ _ => .error .songNotFound
    invalidate := fun _ _ => (.ok (), ()) }

/-- A repository double that serves `target` on Read and records into its
state the record that Update was handed. -/
def recordingRepo (target : Song) : RepoOps (Option Song) :=
  { read := fun st _ => (.ok target, st)
    update := fun _ _ s => (.ok (), some s) }

/-! ## Helper lemmas -/

theorem likeMatch_cons (p : Char) (ps t : List Char) :
    likeMatch (p :: ps) t =
      if p = '%' then suffixAny (likeMatch ps) t
      else if p = '_' then likeSkipOne (likeMatch ps) t
      else if p = '\\' then
        match ps with
        | [] => false
        | q :: ps2 => likeLit q (likeMatch ps2) t
      else likeLit p (likeMatch ps) t := by
  cases ps <;> rfl

theorem likeMatch_pct (t : List Char) : likeMatch ['%'] t = true := by
  rw [likeMatch_cons, if_pos rfl]
  induction t with
  | nil => rfl
  | cons c ts ih => simp [suffixAny, ih]

theorem likeMatch_plain_concat (pat : List Char)
    (hp : ∀ c ∈ pat, ¬ c = '%' ∧ ¬ c = '_' ∧ ¬ c = '\\') (t : List Char) :
    likeMatch (pat ++ ['%']) t = true ↔ ∃ r, t = pat ++ r := by
  induction pat generalizing t with
  | nil =>
    simp only [List.nil_append, likeMatch_pct, true_iff]
    exact ⟨t, rfl⟩
  | cons p ps ih =>
    rcases hp p (List.mem_cons_self p ps) with ⟨h1, h2, h3⟩
    rw [List.cons_append, likeMatch_cons, if_neg h1, if_neg h2, if_neg h3]
    cases t with
    | nil => simp [likeLit]
    | cons c ts =>
      rw [likeLit]
      simp only [Bool.and_eq_true, beq_iff_eq,
        ih (fun q hq => hp q (List.mem_cons_of_mem p hq)) ts]
      constructor
      · rintro ⟨rfl, r, rfl⟩
        exact ⟨r, rfl⟩
      · rintro ⟨r, hr⟩
        rw [List.cons_append] at hr
        injection hr with hc hts
        exact ⟨hc, r, hts⟩

theorem likeMatch_pct_plain (pat : List Char)
    (hp : ∀ c ∈ pat, ¬ c = '%' ∧ ¬ c = '_' ∧ ¬ c = '\\') (t : List Char) :
    likeMatch ('%' :: pat ++ ['%']) t = true ↔ SubstringOf pat t := by
  rw [List.cons_append, likeMatch_cons, if_pos rfl]
  induction t with
  | nil =>
    rw [suffixAny, likeMatch_plain_concat pat hp]
    constructor
    · rintro ⟨r, hr⟩
      rcases List.append_eq_nil.mp hr.symm with ⟨hpat, _⟩
      exact ⟨[], [], by simp [hpat]⟩
    · rintro ⟨l, r, hl⟩
      have h0 := hl.symm
      simp only [List.append_eq_nil] at h0
      exact ⟨[], by simp [h0.1.2]⟩
  | cons c ts ih =>
    rw [suffixAny]
    simp only [Bool.or_eq_true, likeMatch_plain_concat pat hp, ih]
    constructor
    · rintro (⟨r, hr⟩ | ⟨l, r, hr⟩)
      · exact ⟨[], r, by simpa using hr⟩
      · exact ⟨c :: l, r, by simp [hr]⟩
    · rintro ⟨l, r, hl⟩
      cases l with
      | nil => exact Or.inl ⟨r, by simpa using hl⟩
      | cons x xs =>
        rw [List.cons_append, List.cons_append] at hl
        injection hl with h1 h2
        exact Or.inr ⟨xs, r, by simpa using h2⟩

theorem likePlain_forall (pat : List Char) (h : likePlain pat = true) :
    ∀ c ∈ pat, ¬ c = '%' ∧ ¬ c = '_' ∧ ¬ c = '\\' := by
  intro c hc
  have := List.all_eq_true.mp h c hc
  simpa [and_assoc] using this

theorem matchesFilter_iff_of_wildcardFree (filterSong s : Song)
    (hn : wildcardFree filterSong.name = true)
    (hg : wildcardFree filterSong.group = true) :
    matchesFilter filterSong s = true ↔ specMatches filterSong s := by
  have hn' := likePlain_forall _ hn
  have hg' := likePlain_forall _ hg
  simp only [lowerChars] at hn' hg'
  simp only [matchesFilter, specMatches, containsCI, lowerChars,
    Bool.and_eq_true, Bool.or_eq_true, beq_iff_eq]
  rw [likeMatch_pct_plain _ hn', likeMatch_pct_plain _ hg']
  tauto

theorem mem_insertDesc (x s : Song) (l : List Song) :
    x ∈ insertDesc s l ↔ x = s ∨ x ∈ l := by
  induction l with
  | nil => simp [insertDesc]
  | cons t ts ih =>
    by_cases h : t.createdAt ≤ s.createdAt
    · simp [insertDesc, h]
    · simp only [insertDesc, if_neg h, List.mem_cons, ih]
      tauto

theorem mem_sortDesc (x : Song) (l : List Song) :
    x ∈ sortDesc l ↔ x ∈ l := by
  induction l with
  | nil => simp [sortDesc]
  | cons a l ih =>
    simp only [sortDesc, List.foldr_cons] at ih ⊢
    rw [mem_insertDesc, ih, List.mem_cons]

theorem sortedDesc_insertDesc (s : Song) (l : List Song)
    (h : SortedDesc l) : SortedDesc (insertDesc s l) := by
  simp only [SortedDesc] at h ⊢
  induction l with
  | nil => simp [insertDesc]
  | cons t ts ih =>
    rcases List.pairwise_cons.mp h with ⟨ht, hts⟩
    by_cases hle : t.createdAt ≤ s.createdAt
    · rw [insertDesc, if_pos hle]
      refine List.pairwise_cons.mpr ⟨?_, h⟩
      intro y hy
      rcases List.mem_cons.mp hy with rfl | hy
      · exact hle
      · exact le_trans (ht y hy) hle
    · rw [insertDesc, if_neg hle]
      refine List.pairwise_cons.mpr ⟨?_, ih hts⟩
      intro y hy
      rcases (mem_insertDesc y s ts).mp hy with rfl | hy
      · exact Nat.le_of_lt (Nat.lt_of_not_le hle)
      · exact ht y hy

theorem sortedDesc_sortDesc (l : List Song) : SortedDesc (sortDesc l) := by
  induction l with
  | nil => simp [sortDesc, SortedDesc]
  | cons a l ih =>
    simp only [sortDesc, List.foldr_cons] at ih ⊢
    exact sortedDesc_insertDesc a _ ih

/-- C3: for every mutating Repository operation (Create, Update, Delete) the
Store is written first and the Cache second; if the Store write fails
(including NotFound) the operation returns that error and the Cache state is
completely unchanged — the conclusion holds for every cache implementation
`c`, so the cache is not even consulted, and its state component is exactly
the input state. -/
theorem store_written_first_cache_untouched_on_failure {τ σ : Type}
    (d : DatabaseOps τ) (c : CacheOps σ) (t : τ) (s : σ) (key : SongInfo)
    (song : Song) (e : Err) (t2 : τ) :
    (d.create t song = (.error e, t2) →
      Repository.create d c (t, s) song = (.error e, (t2, s)))
    ∧ (d.update t key song = (.error e, t2) →
      Repository.update d c (t, s) key song = (.error e, (t2, s)))
    ∧ (d.delete t key = (.error e, t2) →
      Repository.delete d c (t, s) key = (.error e, (t2, s))) := by
  refine ⟨fun h => ?_, fun h => ?_, fun h => ?_⟩
  · simp [Repository.create, h]
  · simp [Repository.update, h]
  · simp [Repository.delete, h]

/-- Witness for C3 at a concrete store double whose operations fail with a
connectivity error, paired with the concrete Redis cache model: each failed
mutation returns the store error and leaves the cache state untouched. -/
theorem store_written_first_witness :
    Repository.create downDb redisCache (((), [(songKey hysteria, CacheVal.good hysteria)]))
        starlight
      = (.error (.backend "connection refused"), ((), [(songKey hysteria, CacheVal.good hysteria)]))
    ∧ Repository.update downDb redisCache (((), [(songKey hysteria, CacheVal.good hysteria)]))
        keyHysteria starlight
      = (.error (.backend "connection refused"), ((), [(songKey hysteria, CacheVal.good hysteria)]))
    ∧ Repository.delete downDb redisCache (((), [(songKey hysteria, CacheVal.good hysteria)]))
        keyHysteria
      = (.error (.backend "connection refused"), ((), [(songKey hysteria, CacheVal.good hysteria)])) := by
  have h := store_written_first_cache_untouched_on_failure downDb redisCache ()
    [(songKey hysteria, CacheVal.good hysteria)] keyHysteria starlight
    (.backend "connection refused") ()
  exact ⟨h.1 rfl, h.2.1 rfl, h.2.2 rfl⟩

/-- C10: during Repository.Read on a cache miss, if the Store read succeeds
but the cache fill fails, Repository.Read returns the Cache.Set error and no
record — the store record is lost to the caller. -/
theorem read_cache_fill_failure_drops_record {τ σ : Type}
    (d : DatabaseOps τ) (c : CacheOps σ) (st : τ × σ) (key : SongInfo)
    (e1 : Err) (s : Song) (e2 : Err) (s2 : σ)
    (hget : c.get st.2 key = .error e1)
    (hdb : d.read st.1 key = .ok s)
    (hset : c.set st.2 s = (.error e2, s2)) :
    Repository.read d c st key = (.error e2, (st.1, s2)) := by
  simp [Repository.read, hget, hdb, hset]

/-- Witness for C10 at the concrete Postgres model and a cache double whose
Set fails: the read returns the Set error even though the store held the
record. -/
theorem read_cache_fill_failure_witness :
    Repository.read (pgDb 0 0) faultyCache ([hysteria], ()) keyHysteria
      = (.error (.backend "could not set song JSON in Redis"), ([hysteria], ())) :=
  read_cache_fill_failure_drops_record (pgDb 0 0) faultyCache ([hysteria], ())
    keyHysteria .songNotFound hysteria
    (.backend "could not set song JSON in Redis") () rfl rfl rfl

/-- C9: an HTTP 200 reply of the external metadata API whose decoded body has
an empty name is rejected by ConvertResponseToSong, but
MustConvertResponseToSong discards the error, FetchMusicInfo returns a nil
Song with a nil error, and Service.Add hands the nil pointer to
Repository.Create, which dereferences it — Service.Add panics on such
responses. -/
theorem service_add_panics_on_invalid_api_body :
    ConvertResponseToSong emptyNameResponse = .error .invalidSongName
    ∧ MustConvertResponseToSong emptyNameResponse = none
    ∧ fetchMusicInfo 200 (.ok emptyNameResponse) = .ok none
    ∧ (Service.add (pgDb 0 7) redisCache (([] : List Song), ([] : RedisState))
        (fetchMusicInfo 200 (.ok emptyNameResponse))).1 = .panics :=
  ⟨rfl, rfl, rfl, rfl⟩

/-- C6 counterexample: with an existing record whose created_at is 3 and a
partial update carrying created_at 5, the record Service.Update hands to
Repository.Update carries created_at 5 — created_at is NOT always preserved
from the original record. -/
theorem merge_created_at_not_preserved_counterexample :
    ((Service.update (recordingRepo tgtKeep) 99 (none : Option Song)
        keyHysteria updNonZeroCreated).2.map Song.createdAt = some 5)
    ∧ tgtKeep.createdAt = 3 := ⟨rfl, rfl⟩

/-- C6 amended: Service.Update reads the current record through the
Repository, merges the partial update over it (empty incoming fields keep the
old value, non-empty incoming fields replace it), and calls Repository.Update
with the merged record; updated_at is always refreshed to now and id is
always preserved from the original, while created_at is preserved from the
original only when the incoming record's created_at is zero (as partial
updates built from the HTTP request always are) — a non-zero incoming
created_at replaces it like any other non-empty field. -/
theorem service_update_merges_over_current {ρ : Type}
    (R : RepoOps ρ) (now : Nat) (st st2 : ρ) (key : SongInfo)
    (u target : Song)
    (hread : R.read st key = (.ok target, st2)) :
    Service.update R now st key u = R.update st2 key (mergeSongs now u target)
    ∧ (mergeSongs now u target).id = target.id
    ∧ (mergeSongs now u target).updatedAt = now
    ∧ (u.createdAt = 0 → (mergeSongs now u target).createdAt = target.createdAt)
    ∧ (mergeSongs now u target).name
        = (if u.name = "" then target.name else u.name)
    ∧ (mergeSongs now u target).group
        = (if u.group = "" then target.group else u.group)
    ∧ (mergeSongs now u target).text
        = (if u.text = "" then target.text else u.text)
    ∧ (mergeSongs now u target).link
        = (if u.link = "" then target.link else u.link)
    ∧ (mergeSongs now u target).releaseDate
        = (if u.releaseDate = 0 then target.releaseDate else u.releaseDate) := by
  refine ⟨?_, rfl, rfl, fun h => by simp [mergeSongs, h], rfl, rfl, rfl, rfl, rfl⟩
  simp [Service.update, Service.get, hread]

/-- Witness for the amended C6: a partial update carrying only new lyrics
(zero created_at) over `tgtKeep` reaches Repository.Update as the merged
record, which keeps the original name/group/link and created_at 3, takes the
new text, and refreshes updated_at to 99. -/
theorem service_update_merges_witness :
    Service.update (recordingRepo tgtKeep) 99 (none : Option Song)
        keyHysteria updPartialText
      = (recordingRepo tgtKeep).update none keyHysteria
          (mergeSongs 99 updPartialText tgtKeep)
    ∧ (mergeSongs 99 updPartialText tgtKeep).createdAt = 3
    ∧ (mergeSongs 99 updPartialText tgtKeep).name = "X"
    ∧ (mergeSongs 99 updPartialText tgtKeep).text = "new lyrics"
    ∧ (mergeSongs 99 updPartialText tgtKeep).updatedAt = 99 := by
  have h := service_update_merges_over_current (recordingRepo tgtKeep) 99
    (none : Option Song) none keyHysteria updPartialText tgtKeep rfl
  refine ⟨h.1, (h.2.2.2.1 rfl).trans rfl, h.2.2.2.2.1.trans (by decide),
    h.2.2.2.2.2.2.1.trans (by decide), h.2.2.1⟩

/-- C5 counterexample: two matching rows stored in ascending created_at
order; with limit 0 the adapter emits no ORDER BY clause, so the rows come
back in table order — ascending, not the claimed created_at-descending. -/
theorem limit_zero_not_sorted_counterexample :
    pgReadAllWithFilter [hysteria, starlight] emptySong 0 0
      = [hysteria, starlight]
    ∧ ¬ SortedDesc [hysteria, starlight] := by
  refine ⟨rfl, fun h => ?_⟩
  have := (List.pairwise_cons.mp h).1 starlight (List.mem_cons_self _ _)
  simp [hysteria, starlight] at this

/-- C5 amended: ReadAllWithFilter returns exactly the table rows satisfying
the WHERE clause built from the non-empty filter fields — `name`/`group` are
matched with SQL `ILIKE '%' || value || '%'` on the raw, unescaped filter
value (so `%`, `_` and backslash inside the value keep their LIKE
meta-meaning), which for metacharacter-free values coincides with
case-insensitive substring containment — and exact match on a non-zero
release_date, with empty/zero fields not filtered on.  When limit is zero all
matching rows are returned in table order (the query carries no ORDER BY
clause); only when limit is non-zero are the rows ordered by created_at
descending, the i-th returned row being the (offset+i)-th of the sorted
matching rows, with at most limit rows returned. -/
theorem readAllWithFilter_filter_pagination
    (table : List Song) (filterSong : Song) (limit offset : Nat) :
    (∀ s, s ∈ pgReadAllWithFilter table filterSong limit offset →
      s ∈ table ∧ matchesFilter filterSong s = true)
    ∧ (∀ s, s ∈ pgReadAllWithFilter table filterSong 0 offset ↔
        (s ∈ table ∧ matchesFilter filterSong s = true))
    ∧ pgReadAllWithFilter table filterSong 0 offset
        = table.filter (matchesFilter filterSong)
    ∧ (wildcardFree filterSong.name = true →
        wildcardFree filterSong.group = true →
        ∀ s, matchesFilter filterSong s = true ↔ specMatches filterSong s)
    ∧ (limit ≠ 0 →
        SortedDesc (pgReadAllWithFilter table filterSong limit offset)
        ∧ (pgReadAllWithFilter table filterSong limit offset).length ≤ limit
        ∧ ∀ i, i < limit →
            (pgReadAllWithFilter table filterSong limit offset)[i]?
              = (sortDesc (table.filter (matchesFilter filterSong)))[offset + i]?) := by
  have hzero : pgReadAllWithFilter table filterSong 0 offset
      = table.filter (matchesFilter filterSong) := by
    rw [pgReadAllWithFilter, if_pos rfl]
  refine ⟨?_, ?_, hzero, ?_, ?_⟩
  · intro s hs
    by_cases hl : limit = 0
    · subst hl
      rw [hzero] at hs
      exact List.mem_filter.mp hs
    · rw [pgReadAllWithFilter, if_neg hl] at hs
      have hsub : List.Sublist
          (((sortDesc (table.filter (matchesFilter filterSong))).drop offset).take limit)
          (sortDesc (table.filter (matchesFilter filterSong))) :=
        (List.take_sublist _ _).trans (List.drop_sublist _ _)
      exact List.mem_filter.mp ((mem_sortDesc s _).mp (hsub.subset hs))
  · intro s
    rw [hzero]
    exact List.mem_filter
  · intro hn hg s
    exact matchesFilter_iff_of_wildcardFree filterSong s hn hg
  · intro hl
    rw [pgReadAllWithFilter, if_neg hl]
    refine ⟨?_, ?_, ?_⟩
    · have hsub : List.Sublist
          (((sortDesc (table.filter (matchesFilter filterSong))).drop offset).take limit)
          (sortDesc (table.filter (matchesFilter filterSong))) :=
        (List.take_sublist _ _).trans (List.drop_sublist _ _)
      exact List.Pairwise.sublist hsub (sortedDesc_sortDesc _)
    · rw [List.length_take]
      exact Nat.min_le_left _ _
    · intro i hi
      rw [List.getElem?_take, if_pos hi, List.getElem?_drop]

/-- Witness for the amended C5: the mixed-case metacharacter-free filter
"hYsT" with limit 1 selects exactly `hysteria` (soundness, the wildcard-free
substring reading, sortedness and the length bound all exercised), the same
filter with limit 0 returns the matching rows in table order, and with the
empty filter, limit 1 and offset 1 the returned row is the row at index 1 of
the created_at-sorted table — the offset semantics. -/
theorem readAllWithFilter_filter_pagination_witness :
    (hysteria ∈ [hysteria, starlight] ∧ matchesFilter filterHyst hysteria = true)
    ∧ (hysteria ∈ pgReadAllWithFilter [hysteria, starlight] filterHyst 0 0 ↔
        (hysteria ∈ [hysteria, starlight] ∧ matchesFilter filterHyst hysteria = true))
    ∧ pgReadAllWithFilter [hysteria, starlight] filterHyst 0 0 = [hysteria]
    ∧ (matchesFilter filterHyst hysteria = true ↔ specMatches filterHyst hysteria)
    ∧ SortedDesc (pgReadAllWithFilter [hysteria, starlight] filterHyst 1 0)
    ∧ (pgReadAllWithFilter [hysteria, starlight] filterHyst 1 0).length ≤ 1
    ∧ (pgReadAllWithFilter [hysteria, starlight] emptySong 1 1)[0]?
        = (sortDesc [hysteria, starlight])[1 + 0]? := by
  have h := readAllWithFilter_filter_pagination [hysteria, starlight] filterHyst 1 0
  have hoff := readAllWithFilter_filter_pagination [hysteria, starlight] emptySong 1 1
  have hl := h.2.2.2.2 (by decide)
  refine ⟨h.1 hysteria (by decide), h.2.1 hysteria, h.2.2.1.trans (by decide),
    h.2.2.2.1 (by decide) (by decide) hysteria, hl.1, hl.2.1, ?_⟩
  have := (hoff.2.2.2.2 (by decide)).2.2 0 (by decide)
  simpa using this

end SongLib
